import Mathlib

/-!
Shallow embedding of the scenic-drive-planner pipeline (`src/app.py`).

HTTP calls, the Streamlit UI and external libraries (polyline decoding,
imageio GIF encoding) are collaborators: functions that in Python consume
a network response are embedded as functions of the already-received
response data (lists of raw place records, street-view fetch outcomes,
response text).  Python floats carrying ratings are modelled as `Rat`
(every literal in play is an exact decimal); Python's ordered `dict` is
modelled as an insertion-ordered association list; a Python expression
that can raise an unhandled exception is embedded as an `Option`-valued
function returning `none` on the raising path.
-/

/-- The mapping-provider credential read from the process environment
(`os.getenv("GOOGLE_MAPS_API_KEY")`); constant for the process lifetime. -/
def GOOGLE_MAPS_API_KEY : String := "GOOGLE_MAPS_API_KEY"

/-- A raw place record as returned by a nearby-search response
(the fields `app.py` reads: `place_id`, `name`, `photos` (list of
photo-reference tokens), `rating` (absent ⇒ `none`), `types`,
`user_ratings_total`). -/
structure RawPlace where
  place_id : String
  name : String
  photos : List String
  rating : Option Rat
  types : List String
  user_ratings_total : Nat
deriving DecidableEq, Repr

/-- A scenic spot as stored by `get_scenic_spots`:
`{"name": ..., "photo_reference": ...}`. -/
structure ScenicSpot where
  name : String
  photo_reference : String
deriving DecidableEq, Repr

/-- A route option as built by `get_route_options` (scenic spots attached
later by the orchestrator: `route['scenic_spots'] = get_scenic_spots(...)`). -/
structure Route where
  id : String
  summary : String
  distance_text : String
  duration_text : String
  poly : String
  scenic_spots : List ScenicSpot
deriving DecidableEq, Repr

/-! ## Geo sampler

`app.py` line 50: `[path[int(i * len(path) / 7)] for i in range(7)]`
and line 82: `[path[int(i * len(path) / 25)] for i in range(1, 25)]`.
`int(i * L / K)` is the floor of the exact quotient for all path lengths
in range, i.e. Nat division. -/

/-- Index picked for sample number `i` on a path of length `L` split `K`
ways: `int(i * L / K)`. -/
def sampleIndex (i L K : Nat) : Nat := i * L / K

/-- The 7 sample indices used by `get_scenic_spots` (line 50). -/
def scenicSampleIndices (L : Nat) : List Nat :=
  (List.range 7).map (fun i => sampleIndex i L 7)

/-- The 24 sample indices used by `create_drive_preview_assets`
(line 82, `range(1, 25)`: the start point is excluded). -/
def previewSampleIndices (L : Nat) : List Nat :=
  (List.range' 1 24).map (fun i => sampleIndex i L 25)

/-! ## Scenic scorer (`get_scenic_spots`, lines 47–65)

The nested loops issue up to 42 nearby searches; their concatenated
result lists are the input here.  A record is accepted iff the `if` on
line 62 holds; accepted records are written into the `scenic_places`
dict keyed by `place_id` (Python dict: insertion-ordered, assignment to
an existing key overwrites the value in place). -/

/-- The fixed allow-list of place types (line 53). -/
def allowed_types : List String :=
  ["tourist_attraction", "park", "museum", "natural_feature", "zoo",
   "art_gallery", "landmark"]

/-- Line 62: `place.get('photos') and place.get('rating', 0) > 4.0 and
not allowed_types.isdisjoint(place_types)`. -/
def accepts (p : RawPlace) : Bool :=
  !p.photos.isEmpty && decide ((4 : Rat) < p.rating.getD 0) &&
    p.types.any (fun t => allowed_types.contains t)

/-- The value stored for an accepted record (line 63):
`{"name": place['name'], "photo_reference": place['photos'][0][...]}`. -/
def mkSpot (p : RawPlace) : ScenicSpot :=
  { name := p.name, photo_reference := p.photos.headD "" }

/-- One iteration of the inner loop body (lines 60–63) on the ordered
dict, modelled as an insertion-ordered association list: assignment to
an existing key overwrites in place, a new key is appended. -/
def insertPlace (m : List (String × ScenicSpot)) (p : RawPlace) :
    List (String × ScenicSpot) :=
  if accepts p then
    if m.any (fun q => q.1 == p.place_id) then
      m.map (fun q => if q.1 == p.place_id then (p.place_id, mkSpot p) else q)
    else
      m ++ [(p.place_id, mkSpot p)]
  else m

/-- The `scenic_places` dict after processing all raw records in
encounter order. -/
def scenic_map (places : List RawPlace) : List (String × ScenicSpot) :=
  places.foldl insertPlace []

/-- `get_scenic_spots` (line 65): `list(scenic_places.values())`. -/
def get_scenic_spots (places : List RawPlace) : List ScenicSpot :=
  (scenic_map places).map Prod.snd

/-! ## Pit-stop ranker (`get_pit_stops`, lines 67–76)

`sorted(results, key=lambda x: x.get('rating', 0), reverse=True)[:5]`,
then each record projected to name / display rating / total ratings.
Python's `sorted` is stable and `reverse=True` keeps the original
relative order of equal keys, so it is embedded as a stable insertion
sort for the descending order. -/

/-- The sort key (line 75): `x.get('rating', 0)`. -/
def ratingKey (p : RawPlace) : Rat := p.rating.getD 0

/-- The display value `p.get('rating', 'N/A')` (line 75): either the
numeric rating or the string sentinel `"N/A"`. -/
inductive RatingDisplay where
  | num (q : Rat)
  | na
deriving DecidableEq, Repr

/-- A pit-stop record as returned by `get_pit_stops` (line 75). -/
structure PitStop where
  name : String
  rating : RatingDisplay
  total_ratings : Nat
deriving DecidableEq, Repr

/-- Insert a record into a list already sorted descending by
`ratingKey`: it lands before the first element of smaller-or-equal key,
so it precedes equal-key elements that occurred later in the input (the
placement Python's stable descending sort gives it). -/
def insertDesc (p : RawPlace) : List RawPlace → List RawPlace
  | [] => [p]
  | q :: qs =>
      if ratingKey q ≤ ratingKey p then p :: q :: qs
      else q :: insertDesc p qs

/-- Stable sort, descending by `ratingKey`: the embedding of
`sorted(results, key=lambda x: x.get('rating', 0), reverse=True)`. -/
def sortDesc : List RawPlace → List RawPlace
  | [] => []
  | p :: ps => insertDesc p (sortDesc ps)

/-- `get_pit_stops` applied to the nearby-search result list. -/
def get_pit_stops (results : List RawPlace) : List PitStop :=
  ((sortDesc results).take 5).map (fun p =>
    { name := p.name,
      rating := match p.rating with
        | some q => RatingDisplay.num q
        | none => RatingDisplay.na,
      total_ratings := p.user_ratings_total })

/-! ## AI route choice (`get_llm_choice`, lines 103–114)

`int("".join(filter(str.isdigit, response.text)))` then
`f"Route {choice_number}"`; every exception (transport error from the
generative call, or `ValueError` from `int('')`) yields `None`.  The
embedding takes the response text (`none` = the generative call itself
raised). -/

/-- The digit characters of `s`, concatenated in order:
`"".join(filter(str.isdigit, s))`. -/
def digitsOf (s : String) : String := String.mk (s.data.filter Char.isDigit)

/-- `int` applied to an (all-digit) character sequence: the base-10
value, or `none` for the empty sequence (`int('')` raises
`ValueError`, which line 114 catches). -/
def pyIntOfDigits (cs : List Char) : Option Nat :=
  match cs with
  | [] => none
  | _ => some (cs.foldl (fun acc c => acc * 10 + (c.toNat - 48)) 0)

/-- `get_llm_choice` given the AI response text (`none` = the
generative call itself raised; caught by the same `except`). -/
def get_llm_choice (responseText : Option String) : Option String :=
  match responseText with
  | none => none
  | some t =>
      match pyIntOfDigits (digitsOf t).data with
      | none => none
      | some n => some ("Route " ++ toString n)

/-! ## Orchestrator route selection (`app.py` lines 199–205) -/

/-- One comparison step of Python `max` with key
`lambda r: len(r['scenic_spots'])`: a later candidate replaces the
running maximum only when its key is strictly greater. -/
def scenicStep (best q : Route) : Route :=
  if best.scenic_spots.length < q.scenic_spots.length then q else best

/-- `max(route_options, key=lambda r: len(r['scenic_spots']))`: Python
`max` keeps the first of several maximal elements and raises on an
empty list (embedded as `none`). -/
def maxByScenic : List Route → Option Route
  | [] => none
  | r :: rs => some (rs.foldl scenicStep r)

/-- Lines 200–205: fall back to `maxByScenic` when the AI choice is
falsy (`None` or the empty string) or names an id not among the fetched
routes; otherwise select the (first) route with that id. -/
def choose_route (chosen_route_id : Option String) (route_options : List Route) :
    Option Route :=
  if (match chosen_route_id with | none => true | some s => s == "") ||
      !(route_options.any (fun r => some r.id == chosen_route_id)) then
    maxByScenic route_options
  else
    route_options.find? (fun r => some r.id == chosen_route_id)

/-! ## Preview builder (`create_drive_preview_assets`, lines 78–100)

Each sampled point's street-view interaction has one of three outcomes:
metadata not OK (or exception), image fetch not 200, or an image
fetched.  The point stands in for the image URL built from it (the URL
is a pure function of the point).  The GIF blob produced by
`imageio.mimsave` is external; the embedding keeps the frame list. -/

/-- Outcome of the street-view metadata + image fetch at one sampled
point. -/
inductive SVResult where
  | unavailable
  | httpError
  | image (bytes : Nat)
deriving DecidableEq, Repr

/-- The `for lat, lng in sample_points` loop (lines 83–95) with its
`break` once 12 grid URLs are collected; accumulators are the GIF
frames and the grid of (points standing for) URLs. -/
def previewLoop : List (Nat × SVResult) → List Nat → List Nat →
    List Nat × List Nat
  | [], gif, grid => (gif, grid)
  | (p, res) :: rest, gif, grid =>
      if 12 ≤ grid.length then (gif, grid)
      else
        match res with
        | SVResult.image b =>
            previewLoop rest
              (if gif.length < 10 then gif ++ [b] else gif) (grid ++ [p])
        | _ => previewLoop rest gif grid

/-- `create_drive_preview_assets` on the sampled points paired with
their fetch outcomes: `(None, None)` when no image was fetched,
otherwise the GIF frames and the grid URLs. -/
def create_drive_preview_assets (pts : List (Nat × SVResult)) :
    Option (List Nat) × Option (List Nat) :=
  match previewLoop pts [] [] with
  | (gif, grid) => if gif.isEmpty then (none, none) else (some gif, some grid)

/-- Specification-level view of the loop: the (point, image) pairs that
a full walk of the sampled points would fetch, in route order. -/
def fetchedPairs : List (Nat × SVResult) → List (Nat × Nat)
  | [] => []
  | (p, SVResult.image b) :: rest => (p, b) :: fetchedPairs rest
  | _ :: rest => fetchedPairs rest

/-! ## Report composer (`generate_report_html`, lines 139–172)

The composed document is a pure function of the report data (plus the
process-constant API key).  `base64.b64encode` is embedded as an actual
base64 encoder over the GIF byte list.  Accessing
`data['drive_gif'].getvalue()` when the preview builder returned `None`
raises `AttributeError`, and `"".join(... for url in data['grid_urls'])`
over `None` raises `TypeError`: both raising paths are embedded as
`none`. -/

/-- The standard base64 alphabet. -/
def base64Alphabet : String :=
  "ABCDEFGHIJKLMNOPQRSTUVWXYZabcdefghijklmnopqrstuvwxyz0123456789+/"

/-- Character for a 6-bit group. -/
def b64Char (n : Nat) : Char := base64Alphabet.data.getD n 'A'

/-- `base64.b64encode` on a byte list (3 bytes → 4 characters, `=`
padding). -/
def b64encode : List Nat → String
  | [] => ""
  | [a] =>
      String.mk [b64Char (a % 256 / 4), b64Char (a % 4 * 16), '=', '=']
  | [a, b] =>
      String.mk [b64Char (a % 256 / 4), b64Char (a % 4 * 16 + b % 256 / 16),
        b64Char (b % 16 * 4), '=']
  | a :: b :: c :: rest =>
      String.mk [b64Char (a % 256 / 4), b64Char (a % 4 * 16 + b % 256 / 16),
        b64Char (b % 16 * 4 + c % 256 / 64), b64Char (c % 64)] ++ b64encode rest

/-- Photo URL builder (line 148). -/
def photo_url (ref : String) : String :=
  "https://maps.googleapis.com/maps/api/place/photo?maxwidth=400&photoreference="
    ++ ref ++ "&key=" ++ GOOGLE_MAPS_API_KEY

/-- Rendering of the display rating in the pit-stop list (the numeric
rendering stands in for Python's float formatting; `"N/A"` is the
missing-rating sentinel). -/
def ratingStr : RatingDisplay → String
  | RatingDisplay.num q => toString q
  | RatingDisplay.na => "N/A"

/-- The aggregate stored in `st.session_state.report_data`
(lines 218–222): `grid_urls` and `drive_gif` are the two outputs of
`create_drive_preview_assets` and are `None` when no street image was
found. -/
structure ReportData where
  start_destination : String
  end_destination : String
  chosen_route : Route
  ai_narrative : String
  map_url : String
  grid_urls : Option (List String)
  scenic_spots : List ScenicSpot
  pit_stops : List PitStop
  drive_gif : Option (List Nat)
deriving DecidableEq, Repr

/-- `generate_report_html` (lines 139–172).  Literal braces of the CSS
are escaped; every interpolation point of the f-string template is kept.
Returns `none` exactly on the raising paths (`drive_gif` or `grid_urls`
absent). -/
def generate_report_html (data : ReportData) : Option String :=
  match data.drive_gif with
  | none => none
  | some gifBytes =>
    match data.grid_urls with
    | none => none
    | some gridUrls =>
      let gif_base64 := b64encode gifBytes
      let drive_preview_html := String.join (gridUrls.map (fun url =>
        "<img src=\"" ++ url ++ "\" alt=\"Drive Preview\">"))
      let scenic_spots_html := String.join ((data.scenic_spots.take 8).map
        (fun spot =>
          "<div><img src=\"" ++ photo_url spot.photo_reference ++ "\" alt=\""
            ++ spot.name ++ "\"><b>" ++ spot.name ++ "</b></div>"))
      let pit_stops_html := String.join (data.pit_stops.map (fun stop =>
        "<li><b>" ++ stop.name ++ "</b> - ⭐ " ++ ratingStr stop.rating
          ++ " (" ++ toString stop.total_ratings ++ " ratings)</li>"))
      some (
        "\n    <!DOCTYPE html><html lang=\"en\"><head><meta charset=\"UTF-8\"><meta name=\"viewport\" content=\"width=device-width, initial-scale=1.0\">\n"
        ++ "    <title>Scenic Drive Report</title><style>body \x7b font-family: -apple-system, BlinkMacSystemFont, \"Segoe UI\", Roboto, sans-serif; margin: 0; padding: 0; background-color: #f0f2f6; \x7d\n"
        ++ "    .container \x7b max-width: 900px; margin: 20px auto; background: #fff; padding: 30px; border-radius: 8px; box-shadow: 0 4px 12px rgba(0,0,0,0.1); \x7d\n"
        ++ "    h1, h2 \x7b color: #1a1a1a; border-bottom: 2px solid #007bff; padding-bottom: 10px; \x7d h1 \x7b font-size: 2.5em; text-align: center; border: none; \x7d\n"
        ++ "    h2 \x7b font-size: 1.8em; margin-top: 40px; \x7d p, li \x7b color: #333; line-height: 1.6; \x7d .header \x7b text-align: center; margin-bottom: 30px; \x7d\n"
        ++ "    .header p \x7b font-size: 1.2em; color: #555; \x7d .map img, .gif-preview img \x7b max-width: 100%; border-radius: 8px; \x7d\n"
        ++ "    .grid \x7b display: grid; grid-template-columns: repeat(auto-fit, minmax(200px, 1fr)); gap: 10px; margin-top: 15px;\x7d\n"
        ++ "    .grid img \x7b width: 100%; border-radius: 8px; \x7d .grid div \x7b text-align: center; \x7d ul \x7b padding-left: 20px; \x7d</style></head><body><div class=\"container\">\n"
        ++ "    <div class=\"header\"><h1>Scenic Drive Report</h1><p>From <strong>" ++ data.start_destination ++ "</strong> to <strong>" ++ data.end_destination ++ "</strong></p>\n"
        ++ "    <p>" ++ data.chosen_route.distance_text ++ " / " ++ data.chosen_route.duration_text ++ "</p></div>\n"
        ++ "    <div class=\"map\"><img src=\"" ++ data.map_url ++ "\" alt=\"Route Map\"></div>\n"
        ++ "    <h2>💡 AI Route Analysis</h2><p>" ++ data.ai_narrative.replace "\\n" "<br>" ++ "</p>\n    \n"
        ++ "    <h2>🛣️ Animated Drive Preview</h2><div class=\"gif-preview\"><img src=\"data:image/gif;base64," ++ gif_base64 ++ "\" alt=\"Animated Drive Preview\"></div>\n    \n"
        ++ "    <h2>Key Vistas</h2><div class=\"grid\">" ++ drive_preview_html ++ "</div>\n"
        ++ "    <h2>🏞️ Sights to See</h2><div class=\"grid\">" ++ scenic_spots_html ++ "</div>\n"
        ++ "    <h2>☕ Recommended Pit Stops</h2><ul>" ++ pit_stops_html ++ "</ul></div></body></html>\n    ")

/-- The persistence step of the display block (lines 236–243): the file
name carries the `datetime.now()` timestamp, the content is
`generate_report_html(data)`; `none` when composition raised. -/
def persist_report (data : ReportData) (timestamp : String) :
    Option (String × String) :=
  (generate_report_html data).map (fun html =>
    ("archive/scenic_route_" ++ timestamp ++ ".html", html))

/-! ## Specification-side views and concrete example inputs -/

/-- The last raw record accepted by the scenic filter that carries place
identifier `k` (the record whose dict write survives). -/
def lastAccepted (k : String) (places : List RawPlace) : Option RawPlace :=
  places.reverse.find? (fun p => accepts p && p.place_id == k)

/-- A list of `k` distinct scenic spots, to give example routes their
scenic-spot counts. -/
def spotsN (k : Nat) : List ScenicSpot :=
  (List.range k).map (fun i => ⟨"S" ++ toString i, "P" ++ toString i⟩)

/-- Example route "Route 1" with 2 scenic spots. -/
def routeA : Route := ⟨"Route 1", "NH48", "100 km", "2 hours", "pA", spotsN 2⟩

/-- Example route "Route 2" with 5 scenic spots. -/
def routeB : Route := ⟨"Route 2", "NH66", "120 km", "3 hours", "pB", spotsN 5⟩

/-- Example route "Route 3" with 1 scenic spot. -/
def routeC : Route := ⟨"Route 3", "SH1", "90 km", "2 hours", "pC", spotsN 1⟩

/-- A fetched route list with scenic-spot counts [2, 5, 1], ids as
`get_route_options` assigns them. -/
def routesExample : List Route := [routeA, routeB, routeC]

/-- First-seen raw record with place identifier "X" (name "A",
photo "p1"); passes the scenic filter. -/
def recA : RawPlace := ⟨"X", "A", ["p1"], some (mkRat 9 2), ["park"], 10⟩

/-- Later raw record with the same place identifier "X" but different
name "B" and photo "p2"; also passes the scenic filter. -/
def recB : RawPlace := ⟨"X", "B", ["p2"], some (mkRat 9 2), ["park"], 10⟩

/-- Pit-stop candidates with ratings [3.5, 4.8, missing, 4.8]. -/
def pitExample : List RawPlace :=
  [⟨"pa", "a", [], some (mkRat 7 2), ["restaurant"], 11⟩,
   ⟨"pb", "b", [], some (mkRat 24 5), ["restaurant"], 12⟩,
   ⟨"pc", "c", [], none, ["restaurant"], 13⟩,
   ⟨"pd", "d", [], some (mkRat 24 5), ["restaurant"], 14⟩]

/-- Six pit-stop candidates, to exercise the top-5 truncation. -/
def pitExample6 : List RawPlace :=
  pitExample ++
    [⟨"pe", "e", [], some 4, ["restaurant"], 15⟩,
     ⟨"pf", "f", [], some 2, ["restaurant"], 16⟩]

/-- A `ReportData` as assembled after a run in which the preview builder
found zero street images: `create_drive_preview_assets` returned
`(None, None)`, so `drive_gif` and `grid_urls` are both absent. -/
def degradedData : ReportData :=
  { start_destination := "A", end_destination := "B", chosen_route := routeB,
    ai_narrative := "A lovely drive.",
    map_url := "https://maps.googleapis.com/maps/api/staticmap?size=600x400",
    grid_urls := none, scenic_spots := spotsN 5, pit_stops := [],
    drive_gif := none }

/-- Sampled preview points with street imagery at points 0 and 2 only. -/
def previewExample : List (Nat × SVResult) :=
  [(0, SVResult.image 5), (1, SVResult.unavailable), (2, SVResult.image 7)]

/-! # Theorems -/

/-- Core bound of the geo sampler: `int(i * L / K)` is a valid index
whenever the path is nonempty and `i < K`. -/
theorem sampleIndex_lt (L K i : Nat) (hL : 1 ≤ L) (hi : i < K) :
    sampleIndex i L K < L := by
  have hK : 0 < K := lt_of_le_of_lt (Nat.zero_le i) hi
  unfold sampleIndex
  rw [Nat.div_lt_iff_lt_mul hK]
  calc i * L < K * L := mul_lt_mul_of_pos_right hi hL
    _ = L * K := Nat.mul_comm K L

/-- C6: every index produced by the geo sampler (`floor(i*L/K)` for
`i` in `0..K-1`, or `1..K-1` for the start-excluding preview sampler)
lies in `[0, L-1]` for every path length `L ≥ 1` — in particular both
concrete samplers never index out of bounds even when `L < K` — and for
`K = 7`, `L = 100` the indices are `[0,14,28,42,57,71,85]`.
(Determinism is immediate: the sampler is embedded as a pure function of
`L` and `K`.) -/
theorem geo_sampler_in_bounds :
    (∀ L K i : Nat, 1 ≤ L → i < K → sampleIndex i L K < L) ∧
    (∀ L : Nat, 1 ≤ L → ∀ idx ∈ scenicSampleIndices L, idx < L) ∧
    (∀ L : Nat, 1 ≤ L → ∀ idx ∈ previewSampleIndices L, idx < L) ∧
    scenicSampleIndices 100 = [0, 14, 28, 42, 57, 71, 85] := by
  refine ⟨fun L K i hL hi => sampleIndex_lt L K i hL hi, ?_, ?_, by decide⟩
  · intro L hL idx hidx
    simp only [scenicSampleIndices, List.mem_map, List.mem_range] at hidx
    obtain ⟨i, hi, rfl⟩ := hidx
    exact sampleIndex_lt L 7 i hL hi
  · intro L hL idx hidx
    simp only [previewSampleIndices, List.mem_map, List.mem_range'_1] at hidx
    obtain ⟨i, hi, rfl⟩ := hidx
    exact sampleIndex_lt L 25 i hL (by omega)

/-- Witness for `geo_sampler_in_bounds` at concrete inputs. -/
theorem geo_sampler_in_bounds_witness :
    sampleIndex 6 100 7 < 100 ∧ sampleIndex 24 200 25 < 200 :=
  ⟨geo_sampler_in_bounds.1 100 7 6 (by decide) (by decide),
   geo_sampler_in_bounds.1 200 25 24 (by decide) (by decide)⟩

/-- The acceptance test of line 62, in propositional form. -/
theorem accepts_iff (p : RawPlace) :
    accepts p = true ↔
      (p.photos ≠ [] ∧ (4 : Rat) < p.rating.getD 0 ∧
        ∃ t ∈ p.types, t ∈ allowed_types) := by
  simp [accepts, List.any_eq_true]
  exact and_assoc

/-- C3: a raw place record is accepted iff it has at least one photo
reference, rating strictly above 4.0, and a type in the 7-element
allow-list; records with rating exactly 4.0, or no photo, or only type
"restaurant" are excluded. -/
theorem scenic_filter_spec :
    (∀ p : RawPlace, get_scenic_spots [p] ≠ [] ↔
      (p.photos ≠ [] ∧ (4 : Rat) < p.rating.getD 0 ∧
        ∃ t ∈ p.types, t ∈ allowed_types)) ∧
    allowed_types.length = 7 ∧
    accepts ⟨"id1", "X", ["ph"], some 4, ["park"], 0⟩ = false ∧
    accepts ⟨"id2", "X", [], some (mkRat 41 10), ["park"], 0⟩ = false ∧
    accepts ⟨"id3", "X", ["ph"], some (mkRat 41 10), ["restaurant"], 0⟩ = false := by
  refine ⟨?_, by decide, by decide, by decide, by decide⟩
  intro p
  have hred : get_scenic_spots [p] = if accepts p then [mkSpot p] else [] := by
    by_cases h : accepts p <;> simp [get_scenic_spots, scenic_map, insertPlace, h]
  rw [hred]
  by_cases h : accepts p = true
  · rw [if_pos h]
    exact iff_of_true (by simp) ((accepts_iff p).mp h)
  · rw [if_neg h]
    exact iff_of_false (by simp) (fun hr => h ((accepts_iff p).mpr hr))

/-- Witness for `scenic_filter_spec` at a concrete accepted record. -/
theorem scenic_filter_spec_witness :
    get_scenic_spots [⟨"w1", "Falls", ["ph"], some (mkRat 9 2), ["park"], 3⟩] ≠ [] :=
  (scenic_filter_spec.1 _).mpr ⟨by decide, by decide, "park", by decide, by decide⟩

/-- C9: report composition is a pure function of `ReportData`; composing
twice yields identical output, and the persisted document's content is
independent of the run timestamp (only the archive file name carries
it). -/
theorem report_composition_deterministic :
    ∀ (d : ReportData) (t₁ t₂ : String),
      generate_report_html d = generate_report_html d ∧
      (persist_report d t₁).map Prod.snd = (persist_report d t₂).map Prod.snd := by
  intro d t₁ t₂
  exact ⟨rfl, by cases h : generate_report_html d <;> simp [persist_report, h]⟩

/-- C1 (code bug): on a run whose preview builder found zero street
images (`drive_gif` and `grid_urls` both `None`), composing the report
does not complete with degraded content — `generate_report_html`
evaluates `data['drive_gif'].getvalue()` on `None` and raises
(`none` in the embedding), so the persistence step never runs. -/
theorem report_compose_crashes_on_null_preview :
    degradedData.drive_gif = none ∧ degradedData.grid_urls = none ∧
    generate_report_html degradedData = none ∧
    persist_report degradedData "20260101_000000" = none :=
  ⟨rfl, rfl, rfl, rfl⟩

/-- C10: the AI route-choice parser concatenates every digit of the
response into one number before forming "Route N": "2 of 3" yields
"Route 23", which matches no fetched route of the 3-route example and
so routes through the fallback; a digit-free response yields `None`;
a valid single digit (here "2") selects that route directly. -/
theorem llm_choice_digit_concatenation :
    get_llm_choice (some "2 of 3") = some "Route 23" ∧
    "Route 23" ∉ routesExample.map Route.id ∧
    choose_route (get_llm_choice (some "2 of 3")) routesExample =
      maxByScenic routesExample ∧
    get_llm_choice (some "I pick the scenic one") = none ∧
    get_llm_choice none = none ∧
    get_llm_choice (some "2") = some "Route 2" ∧
    choose_route (get_llm_choice (some "2")) routesExample = some routeB :=
  ⟨by decide, by decide, by decide, by decide, rfl, by decide, by decide⟩

/-- Python `max` folding: the running maximum is the start value or one
of the folded elements. -/
theorem foldl_scenicStep_mem (rs : List Route) (b : Route) :
    rs.foldl scenicStep b ∈ b :: rs := by
  induction rs generalizing b with
  | nil => simp
  | cons r rs ih =>
    simp only [List.foldl_cons]
    rcases List.mem_cons.mp (ih (scenicStep b r)) with h1 | h1
    · rw [h1]
      unfold scenicStep
      split
      · exact List.mem_cons_of_mem _ (List.mem_cons_self _ _)
      · exact List.mem_cons_self _ _
    · exact List.mem_cons_of_mem _ (List.mem_cons_of_mem _ h1)

/-- Python `max` folding: the running maximum dominates the start value
and every folded element. -/
theorem foldl_scenicStep_ge (rs : List Route) (b : Route) :
    ∀ x ∈ b :: rs,
      x.scenic_spots.length ≤ (rs.foldl scenicStep b).scenic_spots.length := by
  induction rs generalizing b with
  | nil =>
    intro x hx
    rw [List.mem_singleton.mp hx]
    simp
  | cons r rs ih =>
    intro x hx
    simp only [List.foldl_cons]
    have hb : b.scenic_spots.length ≤ (scenicStep b r).scenic_spots.length := by
      unfold scenicStep
      split
      · omega
      · exact le_refl _
    have hr : r.scenic_spots.length ≤ (scenicStep b r).scenic_spots.length := by
      unfold scenicStep
      split
      · exact le_refl _
      · omega
    rcases List.mem_cons.mp hx with rfl | h1
    · exact le_trans hb (ih (scenicStep x r) _ (List.mem_cons_self _ _))
    · rcases List.mem_cons.mp h1 with rfl | h2
      · exact le_trans hr (ih (scenicStep b x) _ (List.mem_cons_self _ _))
      · exact ih (scenicStep b r) x (List.mem_cons_of_mem _ h2)

/-- Python `max` folding: the result is the start value, or else occurs
in the folded list strictly after only elements of strictly smaller key
(so ties keep the first-encountered element). -/
theorem foldl_scenicStep_first (rs : List Route) (b : Route) :
    rs.foldl scenicStep b = b ∨
      ∃ l₁ l₂, rs = l₁ ++ (rs.foldl scenicStep b) :: l₂ ∧
        ∀ x ∈ b :: l₁,
          x.scenic_spots.length < (rs.foldl scenicStep b).scenic_spots.length := by
  induction rs generalizing b with
  | nil => exact Or.inl rfl
  | cons r rs ih =>
    simp only [List.foldl_cons]
    by_cases hbr : b.scenic_spots.length < r.scenic_spots.length
    · have hstep : scenicStep b r = r := by
        unfold scenicStep
        rw [if_pos hbr]
      rw [hstep]
      rcases ih r with h | ⟨l₁, l₂, heq, hlt⟩
      · right
        refine ⟨[], rs, by rw [h]; rfl, ?_⟩
        intro x hx
        rw [List.mem_singleton.mp hx, h]
        exact hbr
      · right
        refine ⟨r :: l₁, l₂, by rw [List.cons_append, ← heq], ?_⟩
        intro x hx
        rcases List.mem_cons.mp hx with h1 | h1
        · exact h1 ▸ lt_trans hbr (hlt r (List.mem_cons_self _ _))
        · exact hlt x h1
    · have hstep : scenicStep b r = b := by
        unfold scenicStep
        rw [if_neg hbr]
      rw [hstep]
      rcases ih b with h | ⟨l₁, l₂, heq, hlt⟩
      · exact Or.inl h
      · right
        refine ⟨r :: l₁, l₂, by rw [List.cons_append, ← heq], ?_⟩
        intro x hx
        rcases List.mem_cons.mp hx with h1 | h1
        · exact h1 ▸ hlt b (List.mem_cons_self _ _)
        · rcases List.mem_cons.mp h1 with h2 | h2
          · subst h2
            exact lt_of_le_of_lt (le_of_not_lt hbr) (hlt b (List.mem_cons_self _ _))
          · exact hlt x (List.mem_cons_of_mem _ h2)

/-- `maxByScenic` on a nonempty list returns the first route attaining
the maximum scenic-spot count. -/
theorem maxByScenic_spec (routes : List Route) (h : routes ≠ []) :
    ∃ r l₁ l₂, maxByScenic routes = some r ∧ routes = l₁ ++ r :: l₂ ∧
      (∀ x ∈ routes, x.scenic_spots.length ≤ r.scenic_spots.length) ∧
      ∀ x ∈ l₁, x.scenic_spots.length < r.scenic_spots.length := by
  match routes, h with
  | r :: rs, _ =>
    rcases foldl_scenicStep_first rs r with h1 | ⟨l₁, l₂, heq, hlt⟩
    · exact ⟨rs.foldl scenicStep r, [], rs, rfl, by rw [h1]; rfl,
        foldl_scenicStep_ge rs r, by simp⟩
    · refine ⟨rs.foldl scenicStep r, r :: l₁, l₂, rfl,
        by rw [List.cons_append, ← heq], foldl_scenicStep_ge rs r, hlt⟩

/-- The second fallback trigger of lines 200–202: an AI result naming a
route id that belongs to none of the fetched routes also routes the
selection through the arg-max fallback. -/
theorem choose_route_unknown_id (s : String) (routes : List Route)
    (h : ∀ r ∈ routes, r.id ≠ s) :
    choose_route (some s) routes = maxByScenic routes := by
  unfold choose_route
  have hany : routes.any (fun r => some r.id == some s) = false := by
    rw [List.any_eq_false]
    intro r hr
    simp [h r hr]
  rw [hany]
  simp

/-- C5: whenever the AI choice is inconclusive (parse failure → `None`)
or names a route identifier not among the fetched routes, the
orchestrator selects the route with the maximum scenic-spot count, ties
broken by first-encountered order; on the 3-route example with counts
[2, 5, 1], both an unparseable response and an out-of-range label
"Route 9" yield the 5-spot route. -/
theorem fallback_argmax_spec :
    (∀ routes : List Route, routes ≠ [] →
      choose_route none routes = maxByScenic routes ∧
      ∃ r l₁ l₂, maxByScenic routes = some r ∧ routes = l₁ ++ r :: l₂ ∧
        (∀ x ∈ routes, x.scenic_spots.length ≤ r.scenic_spots.length) ∧
        ∀ x ∈ l₁, x.scenic_spots.length < r.scenic_spots.length) ∧
    (∀ (s : String) (routes : List Route),
      (∀ r ∈ routes, r.id ≠ s) →
      choose_route (some s) routes = maxByScenic routes) ∧
    get_llm_choice (some "I cannot decide") = none ∧
    choose_route (get_llm_choice (some "I cannot decide")) routesExample =
      some routeB ∧
    "Route 9" ∉ routesExample.map Route.id ∧
    choose_route (some "Route 9") routesExample = some routeB ∧
    routeA.scenic_spots.length = 2 ∧ routeB.scenic_spots.length = 5 ∧
    routeC.scenic_spots.length = 1 := by
  refine ⟨?_, fun s routes h => choose_route_unknown_id s routes h,
    by decide, by decide, by decide, by decide, by decide, by decide,
    by decide⟩
  intro routes h
  exact ⟨rfl, maxByScenic_spec routes h⟩

/-- Witness for `fallback_argmax_spec` at the concrete 3-route list,
exercising both fallback triggers. -/
theorem fallback_argmax_spec_witness :
    (choose_route none routesExample = maxByScenic routesExample ∧
      ∃ r l₁ l₂, maxByScenic routesExample = some r ∧
        routesExample = l₁ ++ r :: l₂ ∧
        (∀ x ∈ routesExample, x.scenic_spots.length ≤ r.scenic_spots.length) ∧
        ∀ x ∈ l₁, x.scenic_spots.length < r.scenic_spots.length) ∧
    choose_route (some "Route 9") routesExample = maxByScenic routesExample :=
  ⟨fallback_argmax_spec.1 routesExample (by decide),
   fallback_argmax_spec.2.1 "Route 9" routesExample (by decide)⟩

/-- C8: once the fetched route list is non-empty, route selection always
yields one of the fetched routes — the "no route determined" abort is
unreachable: the fallback arg-max of a non-empty list is a member, and
the non-fallback branch only selects an id verified to be present. -/
theorem chosen_route_always_fetched :
    ∀ (cid : Option String) (routes : List Route), routes ≠ [] →
      ∃ r, choose_route cid routes = some r ∧ r ∈ routes := by
  intro cid routes h
  unfold choose_route
  split
  · obtain ⟨r, l₁, l₂, hmax, heq, _, _⟩ := maxByScenic_spec routes h
    refine ⟨r, hmax, ?_⟩
    rw [heq]
    exact List.mem_append_right _ (List.mem_cons_self _ _)
  · rename_i hcond
    have hany : routes.any (fun r => some r.id == cid) = true := by
      rcases hb : routes.any (fun r => some r.id == cid) with _ | _
      · exact absurd (by rw [hb]; simp) hcond
      · rfl
    obtain ⟨r, hr, hp⟩ := List.any_eq_true.mp hany
    have hsome : (routes.find? (fun r => some r.id == cid)).isSome :=
      List.find?_isSome.mpr ⟨r, hr, hp⟩
    obtain ⟨x, hx⟩ := Option.isSome_iff_exists.mp hsome
    exact ⟨x, hx, List.mem_of_find?_eq_some hx⟩

/-- Witness for `chosen_route_always_fetched`: an out-of-range AI label
still selects a fetched route. -/
theorem chosen_route_always_fetched_witness :
    ∃ r, choose_route (some "Route 99") routesExample = some r ∧
      r ∈ routesExample :=
  chosen_route_always_fetched (some "Route 99") routesExample (by decide)

/-- `find?` on a cons whose head satisfies the predicate. -/
theorem findCons_pos {α : Type} (p : α → Bool) (a : α) (l : List α)
    (h : p a = true) : List.find? p (a :: l) = some a :=
  List.find?_cons_of_pos l h

/-- `find?` on a cons whose head fails the predicate. -/
theorem findCons_neg {α : Type} (p : α → Bool) (a : α) (l : List α)
    (h : ¬ p a = true) : List.find? p (a :: l) = List.find? p l :=
  List.find?_cons_of_neg l h

/-- The in-place overwrite of an existing dict key does not disturb
lookups of other keys. -/
theorem find_replace (p : RawPlace) (k : String) (hne : p.place_id ≠ k) :
    ∀ m : List (String × ScenicSpot),
      (m.map (fun q => if q.1 == p.place_id then (p.place_id, mkSpot p) else q)).find?
          (fun q => q.1 == k) =
        m.find? (fun q => q.1 == k) := by
  intro m
  induction m with
  | nil => rfl
  | cons e m ih =>
    simp only [List.map_cons]
    by_cases he : (e.1 == p.place_id) = true
    · have h1 : (p.place_id == k) = false := beq_eq_false_iff_ne.mpr hne
      have h2 : (e.1 == k) = false := by
        rw [beq_eq_false_iff_ne, eq_of_beq he]
        exact hne
      rw [if_pos he]
      rw [findCons_neg (fun (q : String × ScenicSpot) => q.1 == k) _ _ (by simp [h1]),
        findCons_neg (fun (q : String × ScenicSpot) => q.1 == k) _ _ (by simp [h2])]
      exact ih
    · rw [if_neg he]
      by_cases hk : (e.1 == k) = true
      · rw [findCons_pos (fun (q : String × ScenicSpot) => q.1 == k) _ _ hk,
          findCons_pos (fun (q : String × ScenicSpot) => q.1 == k) _ _ hk]
      · rw [findCons_neg (fun (q : String × ScenicSpot) => q.1 == k) _ _ hk,
          findCons_neg (fun (q : String × ScenicSpot) => q.1 == k) _ _ hk]
        exact ih

/-- `insertPlace` leaves lookups of other keys unchanged. -/
theorem insertPlace_find_of_ne (m : List (String × ScenicSpot)) (p : RawPlace)
    (k : String) (hne : p.place_id ≠ k) :
    (insertPlace m p).find? (fun q => q.1 == k) =
      m.find? (fun q => q.1 == k) := by
  unfold insertPlace
  split
  · split
    · exact find_replace p k hne m
    · rw [List.find?_append]
      have hnil : ([(p.place_id, mkSpot p)].find? (fun q => q.1 == k)) = none := by
        rw [List.find?_eq_none]
        intro x hx
        rw [List.mem_singleton.mp hx]
        simp [beq_eq_false_iff_ne.mpr hne]
      rw [hnil]
      cases m.find? (fun q => q.1 == k) <;> rfl
  · rfl

/-- After `insertPlace` of an accepted record, the lookup of its key
yields exactly that record's spot. -/
theorem insertPlace_find_of_eq (m : List (String × ScenicSpot)) (p : RawPlace)
    (hacc : accepts p = true) :
    (insertPlace m p).find? (fun q => q.1 == p.place_id) =
      some (p.place_id, mkSpot p) := by
  unfold insertPlace
  rw [if_pos hacc]
  split
  · rename_i hany
    induction m with
    | nil => simp at hany
    | cons e m ih =>
      simp only [List.map_cons]
      by_cases he : (e.1 == p.place_id) = true
      · rw [if_pos he]
        rw [findCons_pos (fun (q : String × ScenicSpot) => q.1 == p.place_id) _ _ (by simp)]
      · have hany' : m.any (fun q => q.1 == p.place_id) = true := by
          rcases List.any_eq_true.mp hany with ⟨x, hx, hpx⟩
          rcases List.mem_cons.mp hx with rfl | hxm
          · exact absurd hpx he
          · exact List.any_eq_true.mpr ⟨x, hxm, hpx⟩
        rw [if_neg he]
        rw [findCons_neg (fun (q : String × ScenicSpot) => q.1 == p.place_id) _ _ he]
        exact ih hany'
  · rename_i hany
    have hnone : m.find? (fun q => q.1 == p.place_id) = none := by
      rw [List.find?_eq_none]
      intro x hx hpx
      exact hany (List.any_eq_true.mpr ⟨x, hx, hpx⟩)
    rw [List.find?_append, hnone]
    rw [findCons_pos (fun (q : String × ScenicSpot) => q.1 == p.place_id) _ _ (by simp)]
    rfl

/-- The dict lookup after folding the whole record stream: the surviving
entry for key `k` is built from the LAST accepted record with that
identifier (Python dict assignment overwrites). -/
theorem scenic_fold_find (k : String) :
    ∀ (l : List RawPlace) (m : List (String × ScenicSpot)),
      ((l.foldl insertPlace m).find? (fun q => q.1 == k)) =
        (match lastAccepted k l with
          | some p => some (k, mkSpot p)
          | none => m.find? (fun q => q.1 == k)) := by
  intro l
  induction l with
  | nil => intro m; simp [lastAccepted]
  | cons p l ih =>
    intro m
    simp only [List.foldl_cons]
    rw [ih (insertPlace m p)]
    cases h : lastAccepted k l with
    | some pLast =>
      have hcons : lastAccepted k (p :: l) = some pLast := by
        unfold lastAccepted at h ⊢
        rw [List.reverse_cons, List.find?_append, h]
        rfl
      rw [hcons]
    | none =>
      have hcons : lastAccepted k (p :: l) =
          (if (accepts p && p.place_id == k) = true then some p else none) := by
        unfold lastAccepted at h ⊢
        rw [List.reverse_cons, List.find?_append, h]
        by_cases hc : (accepts p && p.place_id == k) = true
        · rw [if_pos hc,
            findCons_pos (fun (r : RawPlace) => accepts r && r.place_id == k) _ _ hc]
          rfl
        · rw [if_neg hc,
            findCons_neg (fun (r : RawPlace) => accepts r && r.place_id == k) _ _ hc]
          rfl
      rw [hcons]
      by_cases hc : (accepts p && p.place_id == k) = true
      · rw [if_pos hc]
        have hc' := hc
        rw [Bool.and_eq_true] at hc'
        obtain ⟨hacc, hid⟩ := hc'
        have hidk : p.place_id = k := eq_of_beq hid
        simp only []
        rw [← hidk]
        exact insertPlace_find_of_eq m p hacc
      · rw [if_neg hc]
        by_cases hacc : accepts p = true
        · have hid : p.place_id ≠ k := by
            intro hk
            exact hc (by rw [Bool.and_eq_true]; exact ⟨hacc, beq_iff_eq.mpr hk⟩)
          exact insertPlace_find_of_ne m p k hid
        · have hskip : insertPlace m p = m := by
            unfold insertPlace
            rw [if_neg hacc]
          rw [hskip]

/-- The in-place overwrite keeps the keys of the dict unchanged. -/
theorem keys_replace (p : RawPlace) :
    ∀ m : List (String × ScenicSpot),
      (m.map (fun q => if q.1 == p.place_id then (p.place_id, mkSpot p) else q)).map
          Prod.fst =
        m.map Prod.fst := by
  intro m
  induction m with
  | nil => rfl
  | cons e m ih =>
    simp only [List.map_cons]
    by_cases he : (e.1 == p.place_id) = true
    · rw [if_pos he]
      simp [ih, eq_of_beq he]
      intro a b _
      by_cases ha : a = p.place_id
      · rw [if_pos ha, ha]
      · rw [if_neg ha]
    · rw [if_neg he]
      simp [ih]
      intro a b _
      by_cases ha : a = p.place_id
      · rw [if_pos ha, ha]
      · rw [if_neg ha]

/-- Folding the record stream preserves key uniqueness of the dict. -/
theorem scenic_fold_keys :
    ∀ (l : List RawPlace) (m : List (String × ScenicSpot)),
      (m.map Prod.fst).Nodup → ((l.foldl insertPlace m).map Prod.fst).Nodup := by
  intro l
  induction l with
  | nil => intro m h; exact h
  | cons p l ih =>
    intro m h
    simp only [List.foldl_cons]
    apply ih
    unfold insertPlace
    split
    · split
      · rw [keys_replace p m]
        exact h
      · rename_i hany
        have hnotmem : p.place_id ∉ m.map Prod.fst := by
          intro hmem
          rcases List.mem_map.mp hmem with ⟨q, hq, hfst⟩
          exact hany (List.any_eq_true.mpr ⟨q, hq, beq_iff_eq.mpr hfst⟩)
        rw [List.map_append]
        simp only [List.map_cons, List.map_nil]
        rw [List.nodup_append]
        refine ⟨h, List.nodup_singleton _, ?_⟩
        intro x hx hx1
        rw [List.mem_singleton.mp hx1] at hx
        exact hnotmem hx
    · exact h

/-- C2 (amended): duplicate place identifiers collapse to a single
entry, but the surviving name and photo reference are those of the
LAST-seen accepted record, not the first-seen one; the entry's position
follows the first insertion. -/
theorem scenic_dedup_last_seen :
    (∀ (places : List RawPlace) (k : String),
      (scenic_map places).countP (fun q => q.1 == k) ≤ 1) ∧
    (∀ (places : List RawPlace) (k : String),
      ((scenic_map places).find? (fun q => q.1 == k)).map Prod.snd =
        (lastAccepted k places).map mkSpot) ∧
    get_scenic_spots [recA, recB] = [mkSpot recB] ∧
    mkSpot recB = ⟨"B", "p2"⟩ ∧
    (scenic_map [recA, recB]).countP (fun q => q.1 == "X") = 1 := by
  refine ⟨?_, ?_, by decide, by decide, by decide⟩
  · intro places k
    have hnd := scenic_fold_keys places [] (by simp)
    have hc : (scenic_map places).countP (fun q => q.1 == k) =
        ((scenic_map places).map Prod.fst).count k := by
      rw [List.count_eq_countP, List.countP_map]
      rfl
    rw [hc]
    exact List.nodup_iff_count_le_one.mp hnd k
  · intro places k
    show ((places.foldl insertPlace []).find? (fun q => q.1 == k)).map Prod.snd =
      (lastAccepted k places).map mkSpot
    rw [scenic_fold_find k places []]
    cases h : lastAccepted k places <;> simp

/-- C2 counterexample: two accepted records share identifier "X" but
differ in name and photo reference; the single surviving ScenicSpot
carries the second (last-seen) record's name "B" and photo "p2", not the
first-seen "A"/"p1" the claim states. -/
theorem scenic_dedup_first_seen_false :
    accepts recA = true ∧ accepts recB = true ∧
    recA.place_id = recB.place_id ∧
    recA.name ≠ recB.name ∧ recA.photos ≠ recB.photos ∧
    mkSpot recA = ⟨"A", "p1"⟩ ∧
    get_scenic_spots [recA, recB] = [⟨"B", "p2"⟩] ∧
    get_scenic_spots [recA, recB] ≠ [mkSpot recA] := by
  refine ⟨by decide, by decide, by decide, by decide, by decide, by decide,
    by decide, by decide⟩

/-- Membership in an insertion step of the stable descending sort. -/
theorem mem_insertDesc (p x : RawPlace) :
    ∀ l, x ∈ insertDesc p l ↔ x = p ∨ x ∈ l := by
  intro l
  induction l with
  | nil => simp [insertDesc]
  | cons q qs ih =>
    unfold insertDesc
    split
    · simp [List.mem_cons]
    · simp [List.mem_cons, ih]
      tauto

/-- Inserting into a descending-sorted list keeps it descending. -/
theorem pairwise_insertDesc (p : RawPlace) :
    ∀ l, l.Pairwise (fun a b => ratingKey b ≤ ratingKey a) →
      (insertDesc p l).Pairwise (fun a b => ratingKey b ≤ ratingKey a) := by
  intro l
  induction l with
  | nil => intro _; simp [insertDesc]
  | cons q qs ih =>
    intro h
    unfold insertDesc
    split
    · rename_i hle
      rw [List.pairwise_cons]
      refine ⟨?_, h⟩
      intro x hx
      rcases List.mem_cons.mp hx with rfl | hxm
      · exact hle
      · exact le_trans ((List.pairwise_cons.mp h).1 x hxm) hle
    · rename_i hgt
      rw [List.pairwise_cons] at h ⊢
      refine ⟨?_, ih h.2⟩
      intro x hx
      rcases (mem_insertDesc p x qs).mp hx with rfl | hxm
      · exact le_of_not_le hgt
      · exact h.1 x hxm

/-- The embedded `sorted(..., reverse=True)` is descending in the key. -/
theorem pairwise_sortDesc :
    ∀ l, (sortDesc l).Pairwise (fun a b => ratingKey b ≤ ratingKey a) := by
  intro l
  induction l with
  | nil => simp [sortDesc]
  | cons p ps ih => exact pairwise_insertDesc p (sortDesc ps) ih

/-- Insertion and filtering at a fixed key value commute: the inserted
record lands in front of the equal-key records already present (all of
which came later in the input), behind none of them. -/
theorem filter_insertDesc (p : RawPlace) (v : Rat) :
    ∀ l, (insertDesc p l).filter (fun x => ratingKey x == v) =
      (if ratingKey p == v then p :: l.filter (fun x => ratingKey x == v)
       else l.filter (fun x => ratingKey x == v)) := by
  intro l
  induction l with
  | nil =>
    by_cases hp : (ratingKey p == v) = true <;>
      simp [insertDesc, List.filter, hp]
  | cons q qs ih =>
    unfold insertDesc
    split
    · rename_i hle
      by_cases hp : (ratingKey p == v) = true <;>
        simp [List.filter_cons, hp]
    · rename_i hgt
      by_cases hq : (ratingKey q == v) = true
      · by_cases hp : (ratingKey p == v) = true
        · exfalso
          exact hgt (by rw [eq_of_beq hq, eq_of_beq hp])
        · simp [List.filter_cons, hq, hp, ih]
      · by_cases hp : (ratingKey p == v) = true <;>
          simp [List.filter_cons, hq, hp, ih]

/-- Stability of the embedded sort: at every key value, the sorted list
restricted to that key equals the input restricted to that key — equal-
rating records keep their input order. -/
theorem filter_sortDesc (v : Rat) :
    ∀ l : List RawPlace,
      (sortDesc l).filter (fun x => ratingKey x == v) =
        l.filter (fun x => ratingKey x == v) := by
  intro l
  induction l with
  | nil => rfl
  | cons p ps ih =>
    show (insertDesc p (sortDesc ps)).filter _ = _
    rw [filter_insertDesc p v (sortDesc ps), ih]
    by_cases hp : (ratingKey p == v) = true <;> simp [List.filter_cons, hp]

/-- C4: the pit-stop ranker sorts descending by rating with missing
ratings keyed 0, stably (the records at each key value keep their input
order), truncates to at most 5, and reports a missing rating as "N/A";
ratings [3.5, 4.8, missing, 4.8] yield the two 4.8 records in input
order, then 3.5, then the missing-rating record; six candidates yield
exactly 5 outputs. -/
theorem pit_stop_ranker_spec :
    (∀ results : List RawPlace, (get_pit_stops results).length ≤ 5) ∧
    (∀ results : List RawPlace,
      (sortDesc results).Pairwise (fun a b => ratingKey b ≤ ratingKey a)) ∧
    (∀ (results : List RawPlace) (v : Rat),
      (sortDesc results).filter (fun x => ratingKey x == v) =
        results.filter (fun x => ratingKey x == v)) ∧
    get_pit_stops pitExample =
      [⟨"b", RatingDisplay.num (mkRat 24 5), 12⟩,
       ⟨"d", RatingDisplay.num (mkRat 24 5), 14⟩,
       ⟨"a", RatingDisplay.num (mkRat 7 2), 11⟩,
       ⟨"c", RatingDisplay.na, 13⟩] ∧
    (get_pit_stops pitExample6).length = 5 := by
  refine ⟨?_, fun results => pairwise_sortDesc results,
    fun results v => filter_sortDesc v results, by decide, by decide⟩
  intro results
  unfold get_pit_stops
  rw [List.length_map, List.length_take]
  omega

/-- Loop invariant of the preview builder: from accumulators satisfying
the GIF/grid length coupling, the loop appends exactly the next fetched
pairs, truncated by the remaining grid capacity (12) and GIF capacity
(10). -/
theorem previewLoop_char :
    ∀ (pts : List (Nat × SVResult)) (gif grid : List Nat),
      gif.length = min grid.length 10 → grid.length ≤ 12 →
      previewLoop pts gif grid =
        (gif ++ (((fetchedPairs pts).take (12 - grid.length)).take
            (10 - gif.length)).map Prod.snd,
         grid ++ ((fetchedPairs pts).take (12 - grid.length)).map Prod.fst) := by
  intro pts
  induction pts with
  | nil =>
    intro gif grid h1 h2
    simp [previewLoop, fetchedPairs]
  | cons pr rest ih =>
    intro gif grid h1 h2
    obtain ⟨p, res⟩ := pr
    unfold previewLoop
    by_cases hfull : 12 ≤ grid.length
    · rw [if_pos hfull]
      have h12 : 12 - grid.length = 0 := by omega
      simp [h12]
    · rw [if_neg hfull]
      cases res with
      | unavailable =>
        rw [ih gif grid h1 h2]
        rfl
      | httpError =>
        rw [ih gif grid h1 h2]
        rfl
      | image b =>
        show previewLoop rest (if gif.length < 10 then gif ++ [b] else gif)
            (grid ++ [p]) = _
        have hfp : fetchedPairs ((p, SVResult.image b) :: rest) =
            (p, b) :: fetchedPairs rest := rfl
        have hg2 : (grid ++ [p]).length ≤ 12 := by
          simp [List.length_append]
          omega
        have h12 : 12 - grid.length = (12 - (grid ++ [p]).length) + 1 := by
          simp [List.length_append]
          omega
        by_cases hlen : gif.length < 10
        · rw [if_pos hlen]
          have hg1 : (gif ++ [b]).length = min (grid ++ [p]).length 10 := by
            simp [List.length_append]
            omega
          rw [ih _ _ hg1 hg2]
          have h10 : 10 - gif.length = (10 - (gif ++ [b]).length) + 1 := by
            simp [List.length_append]
            omega
          rw [hfp, h12, h10, List.take_succ_cons, List.take_succ_cons]
          simp [List.append_assoc]
        · rw [if_neg hlen]
          have hg1 : gif.length = min (grid ++ [p]).length 10 := by
            simp [List.length_append]
            omega
          rw [ih _ _ hg1 hg2]
          have h10 : 10 - gif.length = 0 := by omega
          rw [hfp, h12, h10, List.take_succ_cons]
          simp [List.append_assoc]

/-- The preview loop started empty collects the first 12 fetched URLs
and the first 10 fetched images. -/
theorem preview_loop_closed (pts : List (Nat × SVResult)) :
    previewLoop pts [] [] =
      (((fetchedPairs pts).take 10).map Prod.snd,
       ((fetchedPairs pts).take 12).map Prod.fst) := by
  have h := previewLoop_char pts [] [] (by simp) (by simp)
  simpa [List.take_take] using h

/-- Closed form of `create_drive_preview_assets`. -/
theorem create_preview_closed (pts : List (Nat × SVResult)) :
    create_drive_preview_assets pts =
      (if fetchedPairs pts = [] then (none, none)
       else (some (((fetchedPairs pts).take 10).map Prod.snd),
             some (((fetchedPairs pts).take 12).map Prod.fst))) := by
  unfold create_drive_preview_assets
  rw [preview_loop_closed pts]
  by_cases h : fetchedPairs pts = []
  · simp [h]
  · have hne : ((fetchedPairs pts).take 10).map Prod.snd ≠ [] := by
      simp [List.map_eq_nil_iff, List.take_eq_nil_iff, h]
    rw [if_neg h]
    simp [List.isEmpty_iff, hne]
    exact h

/-- C7: the preview grid holds at most 12 URLs, the animated sequence at
most 10 frames which are exactly the images fetched with the first
min(10, grid length) grid entries in route order (their pairing is the
prefix of the fetched stream), and a run with zero fetched images
returns null for both outputs — never an empty animation. -/
theorem preview_builder_spec :
    (∀ pts : List (Nat × SVResult),
      create_drive_preview_assets pts =
        (if fetchedPairs pts = [] then (none, none)
         else (some (((fetchedPairs pts).take 10).map Prod.snd),
               some (((fetchedPairs pts).take 12).map Prod.fst)))) ∧
    (∀ (pts : List (Nat × SVResult)) (gif grid : List Nat),
      create_drive_preview_assets pts = (some gif, some grid) →
        grid.length ≤ 12 ∧ gif.length = min 10 grid.length ∧
        (grid.take 10).zip gif = (fetchedPairs pts).take 10 ∧ gif ≠ []) ∧
    (∀ pts : List (Nat × SVResult),
      create_drive_preview_assets pts = (none, none) ↔ fetchedPairs pts = []) := by
  refine ⟨create_preview_closed, ?_, ?_⟩
  · intro pts gif grid h
    rw [create_preview_closed pts] at h
    by_cases hfp : fetchedPairs pts = []
    · rw [if_pos hfp] at h
      simp at h
    · rw [if_neg hfp, Prod.mk.injEq] at h
      obtain ⟨hg1, hg2⟩ := h
      have hgif : gif = ((fetchedPairs pts).take 10).map Prod.snd :=
        (Option.some.inj hg1).symm
      have hgrid : grid = ((fetchedPairs pts).take 12).map Prod.fst :=
        (Option.some.inj hg2).symm
      subst hgif hgrid
      refine ⟨?_, ?_, ?_, ?_⟩
      · rw [List.length_map, List.length_take]
        omega
      · rw [List.length_map, List.length_map, List.length_take, List.length_take]
        omega
      · simp only [List.map_take, List.take_take]
        norm_num
        rw [← List.map_take, ← List.map_take, List.zip_map']
        simp [Prod.mk.eta]
      · simp [List.map_eq_nil_iff, List.take_eq_nil_iff, hfp]
  · intro pts
    rw [create_preview_closed pts]
    by_cases hfp : fetchedPairs pts = []
    · simp [hfp]
    · have hne : ((fetchedPairs pts).take 10).map Prod.snd ≠ [] := by
        simp [List.map_eq_nil_iff, List.take_eq_nil_iff, hfp]
      simp [hfp]

/-- Witness for `preview_builder_spec` at a concrete 3-point run with
imagery at two points. -/
theorem preview_builder_spec_witness :
    ([0, 2].take 10).zip [5, 7] = (fetchedPairs previewExample).take 10 ∧
    ([0, 2] : List Nat).length ≤ 12 ∧ ([5, 7] : List Nat) ≠ [] :=
  have h := preview_builder_spec.2.1 previewExample [5, 7] [0, 2] (by decide)
  ⟨h.2.2.1, h.1, h.2.2.2⟩

/-- Witness for `llm_choice_digit_concatenation`: the digit-concatenated
label evaluated on the example response. -/
theorem llm_choice_digit_concatenation_witness :
    get_llm_choice (some "2 of 3") = some "Route 23" :=
  llm_choice_digit_concatenation.1
